import Mathlib

/-!
Verification development for the Mapbox vector style resolution engine of
WhirlyGlobe (MapboxVectorStyleSetC.cpp).  The C++ source is embedded
shallowly: doubles become rationals, std::string becomes String,
the opaque attribute dictionary becomes an association list, and fallible
operations (std::stoi / std::stod, which throw) become Except values.
-/

namespace WK

/-! ## Character and string helpers -/

/-- C `isspace` over the default locale: space, tab, newline, vertical
tab, form feed, carriage return. -/
def cIsSpace (c : Char) : Bool :=
  c = ' ' || c = '\t' || c = '\n' || c = '\x0b' || c = '\x0c' || c = '\r'

/-- Embedding of the static `trim` helper: drop trailing whitespace, then
leading whitespace (the C++ code trims right first, then left; the result
is the same). -/
def trimString (s : String) : String :=
  ⟨List.dropWhile cIsSpace (((s.data.reverse).dropWhile cIsSpace).reverse)⟩

/-- A `\w` character of the `":\w+$"` regex (ASCII word character). -/
def isWordChar (c : Char) : Bool :=
  c.isAlphanum || c = '_'

/-- A character of the separator class of `fieldSeparatorPattern`,
`R"([{}]+)"`. -/
def isBrace (c : Char) : Bool :=
  c = '\x7b' || c = '\x7d'

/-- A character of the separator class of `colorSeparatorPattern`,
`"[(),]"`. -/
def isColorSep (c : Char) : Bool :=
  c = '(' || c = ')' || c = ','

/-- Split a character list at every separator character, keeping empty
pieces (the pieces between two adjacent separators and before a leading
separator).  Always returns at least one piece. -/
def splitChars (isSep : Char → Bool) : List Char → List (List Char)
  | [] => [[]]
  | c :: cs =>
    match splitChars isSep cs with
    | [] => [[]]
    | t :: ts => if isSep c then [] :: t :: ts else (c :: t) :: ts

/-- Token stream of `std::sregex_token_iterator` with sub-match `-1` over
the single-character class `[(),]`: all pieces between separator matches,
in order; the final suffix is enumerated only when it is non-empty. -/
def colorTokens (cs : List Char) : List String :=
  let parts := (splitChars isColorSep cs).map (fun l => (⟨l⟩ : String))
  if parts.getLast? = some "" then parts.dropLast else parts

/-- Token stream of `std::sregex_token_iterator` with sub-match `-1` over
`[{}]+`: separators are maximal runs of braces, so the only possibly-empty
token is the leading prefix; the final suffix is enumerated only when
non-empty, and an empty input yields no token. -/
def fieldTokens (s : String) : List String :=
  if s.data = [] then []
  else
    match (splitChars isBrace s.data).map (fun l => (⟨l⟩ : String)) with
    | [] => []
    | p :: ps => p :: ps.filter (fun t => t ≠ "")

/-! ## MapboxRegexField: the text template parser -/

structure MapboxTextChunk where
  str : String
  keys : List String
deriving DecidableEq, Repr

structure MapboxRegexField where
  chunks : List MapboxTextChunk
  valid : Bool
deriving DecidableEq, Repr

/-- Leftmost starting position of a `regex_search` match of `":\w+$"`:
the position `i` holds a colon whose (non-empty) suffix consists of word
characters only.  Since `:` is not a word character, this is the last
colon of the string when its suffix qualifies. -/
def colonMatchIdx : List Char → Option ℕ
  | [] => none
  | c :: cs =>
    if c = ':' ∧ cs ≠ [] ∧ cs.all isWordChar then some 0
    else (colonMatchIdx cs).map (· + 1)

/-- Build one key chunk: the token itself is the primary key; when the
`":\w+$"` pattern matches, a second key with that colon replaced by an
underscore is appended. -/
def mkKeyChunk (t : String) : MapboxTextChunk :=
  match colonMatchIdx t.data with
  | some i => ⟨"", [t, ⟨t.data.set i '_'⟩]⟩
  | none => ⟨"", [t]⟩

/-- The token loop of `MapboxRegexField::parse`: empty tokens are skipped
without toggling the literal/key parity. -/
def parseChunks (isJustText : Bool) : List String → List MapboxTextChunk
  | [] => []
  | t :: ts =>
    if t = "" then parseChunks isJustText ts
    else
      (if isJustText then ⟨t, []⟩ else mkKeyChunk t) :: parseChunks (!isJustText) ts

/-- Embedding of `MapboxRegexField::parse(const std::string &)`.  The
starting parity is literal unless the first character is `{` (an empty
string reads the terminating NUL in C++, which is not `{`). -/
def MapboxRegexField.parse (textField : String) : MapboxRegexField :=
  ⟨parseChunks (textField.data.head? ≠ some '\x7b') (fieldTokens textField), true⟩

/-! ## The attribute dictionary collaborator -/

/-- The generic attribute store consumed through `hasField`/`getString`,
modelled as an association list (first binding wins). -/
def AttrDict := List (String × String)

instance : DecidableEq AttrDict := fun a b => List.hasDecEq a b

def AttrDict.hasField (attrs : AttrDict) (key : String) : Bool :=
  (List.lookup key attrs).isSome

def AttrDict.getString (attrs : AttrDict) (key : String) : String :=
  (List.lookup key attrs).getD ""

/-! ## MapboxRegexField::build -/

/-- The inner key loop of `build`: returns the appended text (the value of
the first key that is present with a non-empty value) and the `found` flag
(set as soon as any key is present, even with an empty value). -/
def buildKeys (attrs : AttrDict) : List String → String × Bool
  | [] => ("", false)
  | k :: ks =>
    if attrs.hasField k then
      let v := attrs.getString k
      if v ≠ "" then (v, true)
      else ((buildKeys attrs ks).1, true)
    else buildKeys attrs ks

/-- The chunk loop of `build`: returns the accumulated text, the `found`
flag and the `didLookup` flag. -/
def buildChunks (attrs : AttrDict) : List MapboxTextChunk → String × Bool × Bool
  | [] => ("", false, false)
  | c :: cs =>
    let r := buildChunks attrs cs
    if c.str ≠ "" then (c.str ++ r.1, r.2.1, r.2.2)
    else
      let kr := buildKeys attrs c.keys
      (kr.1 ++ r.1, kr.2 || r.2.1, !c.keys.isEmpty || r.2.2)

/-- Embedding of `MapboxRegexField::build`: if any lookup was attempted
and no looked-up key was found, return the empty string; otherwise return
the trimmed accumulated text. -/
def MapboxRegexField.build (f : MapboxRegexField) (attrs : AttrDict) : String :=
  let r := buildChunks attrs f.chunks
  if r.2.2 && !r.2.1 then "" else trimString r.1

/-! ## RGBAColor -/

/-- Four 8-bit channels, kept as naturals below 256. -/
structure RGBAColor where
  r : ℕ
  g : ℕ
  b : ℕ
  a : ℕ
deriving DecidableEq, Repr

/-- Truncation toward zero: the effect of a C cast of a double to an
integer type. -/
def cIntTrunc (q : ℚ) : ℤ :=
  if 0 ≤ q then ⌊q⌋ else -⌊-q⌋

/-- A C++ `uint8_t` obtained from an integer expression: conversion to an
unsigned type is reduction modulo 256. -/
def u8 (z : ℤ) : ℕ :=
  (Int.emod z 256).toNat

/-- The RGBAColor constructor taking four integer channel values. -/
def mkColorI (r g b a : ℤ) : RGBAColor :=
  ⟨u8 r, u8 g, u8 b, u8 a⟩

/-- The RGBAColor constructor taking four double channel values
(truncated toward zero, then reduced to `uint8_t`). -/
def mkColorQ (r g b a : ℚ) : RGBAColor :=
  mkColorI (cIntTrunc r) (cIntTrunc g) (cIntTrunc b) (cIntTrunc a)

/-- Modelled from the spec: `RGBAColor::withAlphaMultiply` is not under
src/.  Per the spec's premultiplied-alpha description and the in-source
unit tests (`RGBAColor(0x12,0x34,0x56).withAlphaMultiply(0x78/255.0) ==
FromARGBInt(0x78081828)`), it scales the RGB channels by the alpha
fraction and stores the fraction in the alpha channel. -/
def RGBAColor.withAlphaMultiply (c : RGBAColor) (alpha : ℚ) : RGBAColor :=
  mkColorQ ((c.r : ℚ) * alpha) ((c.g : ℚ) * alpha) ((c.b : ℚ) * alpha) (255 * alpha)

/-- Modelled from the spec: `RGBAColor::withAlpha` is not under src/;
it keeps RGB and sets the alpha channel from the fraction. -/
def RGBAColor.withAlpha (c : RGBAColor) (alpha : ℚ) : RGBAColor :=
  ⟨c.r, c.g, c.b, u8 (cIntTrunc (255 * alpha))⟩

/-! ## The stop-function evaluator -/

structure MaplyVectorFunctionStop where
  zoom : ℚ
  val : ℚ
  textField : MapboxRegexField
  color : Option RGBAColor
deriving DecidableEq, Repr

structure MaplyVectorFunctionStops where
  base : ℚ
  stops : List MaplyVectorFunctionStop
deriving DecidableEq, Repr

/-- The default-constructed stop: `zoom = -1`, `val = 0`. -/
def dStop0 : MaplyVectorFunctionStop :=
  ⟨-1, 0, ⟨[], false⟩, none⟩

/-- The interpolation ratio between the bracketing stops.  The `base ≠ 1`
branch calls `pow`, a math-library collaborator, passed in as `rp`. -/
def stopRatioAt (rp : ℚ → ℚ → ℚ) (base azoom bzoom z : ℚ) : ℚ :=
  if base = 1 then (z - azoom) / (bzoom - azoom)
  else (rp base (z - azoom) - 1) / (rp base (bzoom - azoom) - 1)

/-- The scan loop of `valueForZoom`: `a` is the previously examined stop;
when the loop runs off the end, the C++ code returns `b->val`, and `b` is
then the stop held in `a` here. -/
def valueScan (rp : ℚ → ℚ → ℚ) (base z : ℚ) :
    MaplyVectorFunctionStop → List MaplyVectorFunctionStop → ℚ
  | a, [] => a.val
  | a, b :: rest =>
    if a.zoom ≤ z ∧ z < b.zoom then
      stopRatioAt rp base a.zoom b.zoom z * (b.val - a.val) + a.val
    else valueScan rp base z b rest

/-- Embedding of `MaplyVectorFunctionStops::valueForZoom`.  With fewer
than two stops the loop body never runs and the code returns
`b ? b->val : 0` with `b` null, i.e. 0 (an empty stop vector would index
out of bounds in C++; `parse` guarantees at least two stops). -/
def MaplyVectorFunctionStops.valueForZoom (rp : ℚ → ℚ → ℚ)
    (fs : MaplyVectorFunctionStops) (z : ℚ) : ℚ :=
  match fs.stops with
  | [] => 0
  | a :: rest =>
    if z ≤ a.zoom then a.val
    else
      match rest with
      | [] => 0
      | b :: rest₂ => valueScan rp fs.base z a (b :: rest₂)

/-- The scan loop of `textForZoom`: the lower bracketing stop's template
is returned verbatim (a step function, no interpolation). -/
def textScan (z : ℚ) :
    MaplyVectorFunctionStop → List MaplyVectorFunctionStop → MapboxRegexField
  | a, [] => a.textField
  | a, b :: rest =>
    if a.zoom ≤ z ∧ z < b.zoom then a.textField
    else textScan z b rest

/-- Embedding of `MaplyVectorFunctionStops::textForZoom`. -/
def MaplyVectorFunctionStops.textForZoom (fs : MaplyVectorFunctionStops)
    (z : ℚ) : MapboxRegexField :=
  match fs.stops with
  | [] => ⟨[], false⟩
  | a :: rest =>
    if z ≤ a.zoom then a.textField
    else
      match rest with
      | [] => ⟨[], false⟩
      | b :: rest₂ => textScan z a (b :: rest₂)

/-! ## Facts about sorted stop lists -/

lemma zoom_mono {l : List MaplyVectorFunctionStop}
    (hch : List.Chain' (fun a b => a.zoom < b.zoom) l)
    {i j : ℕ} (hij : i < j) (hj : j < l.length) :
    (l.get ⟨i, lt_trans hij hj⟩).zoom < (l.get ⟨j, hj⟩).zoom := by
  haveI : IsTrans MaplyVectorFunctionStop (fun a b => a.zoom < b.zoom) :=
    ⟨fun _ _ _ h1 h2 => lt_trans h1 h2⟩
  exact List.pairwise_iff_get.mp (List.chain'_iff_pairwise.mp hch) ⟨i, _⟩ ⟨j, hj⟩ hij

lemma head_zoom_le_get {l : List MaplyVectorFunctionStop} {b : MaplyVectorFunctionStop}
    (hch : List.Chain' (fun a b => a.zoom < b.zoom) (b :: l))
    (n : ℕ) (hn : n < (b :: l).length) :
    b.zoom ≤ ((b :: l).get ⟨n, hn⟩).zoom := by
  cases n with
  | zero => exact le_refl _
  | succ m =>
    exact le_of_lt (zoom_mono hch (Nat.succ_pos m) hn)

lemma head_zoom_le_getLastD :
    ∀ (l : List MaplyVectorFunctionStop) (a : MaplyVectorFunctionStop),
      List.Chain' (fun a b => a.zoom < b.zoom) (a :: l) →
      a.zoom ≤ ((a :: l).getLastD dStop0).zoom
  | [], _, _ => le_refl _
  | b :: l, a, hch => by
    have h1 : a.zoom < b.zoom := List.chain'_cons.mp hch |>.1
    have h2 := head_zoom_le_getLastD l b (List.chain'_cons.mp hch |>.2)
    simpa [List.getLastD_cons] using le_trans (le_of_lt h1) h2

lemma valueScan_last (rp : ℚ → ℚ → ℚ) (base z : ℚ) :
    ∀ (rest : List MaplyVectorFunctionStop) (a : MaplyVectorFunctionStop),
      List.Chain' (fun a b => a.zoom < b.zoom) (a :: rest) →
      ((a :: rest).getLastD dStop0).zoom ≤ z →
      valueScan rp base z a rest = ((a :: rest).getLastD dStop0).val
  | [], a, _, _ => by simp [valueScan, List.getLastD]
  | b :: rest, a, hch, hz => by
    have hch₂ : List.Chain' (fun a b => a.zoom < b.zoom) (b :: rest) :=
      (List.chain'_cons.mp hch).2
    have hlast : ((a :: b :: rest).getLastD dStop0) = ((b :: rest).getLastD dStop0) := by
      simp [List.getLastD_cons]
    rw [hlast] at hz ⊢
    have hble : b.zoom ≤ ((b :: rest).getLastD dStop0).zoom :=
      head_zoom_le_getLastD rest b hch₂
    have hnot : ¬ (a.zoom ≤ z ∧ z < b.zoom) := by
      rintro ⟨-, hzb⟩
      exact absurd (lt_of_lt_of_le hzb (le_trans hble hz)) (lt_irrefl z)
    rw [valueScan, if_neg hnot]
    exact valueScan_last rp base z rest b hch₂ hz

lemma valueScan_bracket (rp : ℚ → ℚ → ℚ) (base z : ℚ) :
    ∀ (rest : List MaplyVectorFunctionStop) (a : MaplyVectorFunctionStop) (i : ℕ)
      (hch : List.Chain' (fun a b => a.zoom < b.zoom) (a :: rest))
      (hi : i + 1 < (a :: rest).length),
      ((a :: rest).get ⟨i, Nat.lt_of_succ_lt hi⟩).zoom ≤ z →
      z < ((a :: rest).get ⟨i + 1, hi⟩).zoom →
      valueScan rp base z a rest
        = stopRatioAt rp base ((a :: rest).get ⟨i, Nat.lt_of_succ_lt hi⟩).zoom
              ((a :: rest).get ⟨i + 1, hi⟩).zoom z
            * (((a :: rest).get ⟨i + 1, hi⟩).val
                - ((a :: rest).get ⟨i, Nat.lt_of_succ_lt hi⟩).val)
            + ((a :: rest).get ⟨i, Nat.lt_of_succ_lt hi⟩).val
  | [], _, i, _, hi, _, _ => by simp at hi
  | b :: rest, a, 0, hch, hi, hle, hlt => by
    simp only [List.get] at hle hlt ⊢
    rw [valueScan, if_pos ⟨hle, hlt⟩]
  | b :: rest, a, n + 1, hch, hi, hle, hlt => by
    have hch₂ : List.Chain' (fun a b => a.zoom < b.zoom) (b :: rest) :=
      (List.chain'_cons.mp hch).2
    simp only [List.get_cons_succ] at hle hlt ⊢
    have hi' : n + 1 < (b :: rest).length := Nat.lt_of_succ_lt_succ hi
    have hble : b.zoom ≤ ((b :: rest).get ⟨n, Nat.lt_of_succ_lt hi'⟩).zoom :=
      head_zoom_le_get hch₂ n (Nat.lt_of_succ_lt hi')
    have hnot : ¬ (a.zoom ≤ z ∧ z < b.zoom) := by
      rintro ⟨-, hzb⟩
      exact absurd (lt_of_lt_of_le hzb (le_trans hble hle)) (lt_irrefl z)
    rw [valueScan, if_neg hnot]
    exact valueScan_bracket rp base z rest b n hch₂ hi' hle hlt

lemma textScan_last (z : ℚ) :
    ∀ (rest : List MaplyVectorFunctionStop) (a : MaplyVectorFunctionStop),
      List.Chain' (fun a b => a.zoom < b.zoom) (a :: rest) →
      ((a :: rest).getLastD dStop0).zoom ≤ z →
      textScan z a rest = ((a :: rest).getLastD dStop0).textField
  | [], a, _, _ => by simp [textScan, List.getLastD]
  | b :: rest, a, hch, hz => by
    have hch₂ : List.Chain' (fun a b => a.zoom < b.zoom) (b :: rest) :=
      (List.chain'_cons.mp hch).2
    have hlast : ((a :: b :: rest).getLastD dStop0) = ((b :: rest).getLastD dStop0) := by
      simp [List.getLastD_cons]
    rw [hlast] at hz ⊢
    have hble : b.zoom ≤ ((b :: rest).getLastD dStop0).zoom :=
      head_zoom_le_getLastD rest b hch₂
    have hnot : ¬ (a.zoom ≤ z ∧ z < b.zoom) := by
      rintro ⟨-, hzb⟩
      exact absurd (lt_of_lt_of_le hzb (le_trans hble hz)) (lt_irrefl z)
    rw [textScan, if_neg hnot]
    exact textScan_last z rest b hch₂ hz

lemma textScan_bracket (z : ℚ) :
    ∀ (rest : List MaplyVectorFunctionStop) (a : MaplyVectorFunctionStop) (i : ℕ)
      (hch : List.Chain' (fun a b => a.zoom < b.zoom) (a :: rest))
      (hi : i + 1 < (a :: rest).length),
      ((a :: rest).get ⟨i, Nat.lt_of_succ_lt hi⟩).zoom ≤ z →
      z < ((a :: rest).get ⟨i + 1, hi⟩).zoom →
      textScan z a rest = ((a :: rest).get ⟨i, Nat.lt_of_succ_lt hi⟩).textField
  | [], _, i, _, hi, _, _ => by simp at hi
  | b :: rest, a, 0, hch, hi, hle, hlt => by
    simp only [List.get] at hle hlt ⊢
    rw [textScan, if_pos ⟨hle, hlt⟩]
  | b :: rest, a, n + 1, hch, hi, hle, hlt => by
    have hch₂ : List.Chain' (fun a b => a.zoom < b.zoom) (b :: rest) :=
      (List.chain'_cons.mp hch).2
    simp only [List.get_cons_succ] at hle hlt ⊢
    have hi' : n + 1 < (b :: rest).length := Nat.lt_of_succ_lt_succ hi
    have hble : b.zoom ≤ ((b :: rest).get ⟨n, Nat.lt_of_succ_lt hi'⟩).zoom :=
      head_zoom_le_get hch₂ n (Nat.lt_of_succ_lt hi')
    have hnot : ¬ (a.zoom ≤ z ∧ z < b.zoom) := by
      rintro ⟨-, hzb⟩
      exact absurd (lt_of_lt_of_le hzb (le_trans hble hle)) (lt_irrefl z)
    rw [textScan, if_neg hnot]
    exact textScan_bracket z rest b n hch₂ hi' hle hlt

/-- A trivial stand-in for the math library's `pow` collaborator; the
`base = 1` branch of the evaluator never consults it. -/
def rp0 : ℚ → ℚ → ℚ := fun _ _ => 0

/-- The numeric stops `[(0,0),(10,100)]` of the claim's example. -/
def exampleNumStops : List MaplyVectorFunctionStop :=
  [⟨0, 0, ⟨[], false⟩, none⟩, ⟨10, 100, ⟨[], false⟩, none⟩]

/-- The text stops `[(0,"low"),(10,"high")]` of the claim's example. -/
def exampleTextStops : List MaplyVectorFunctionStop :=
  [⟨0, 0, MapboxRegexField.parse "low", none⟩,
   ⟨10, 0, MapboxRegexField.parse "high", none⟩]

/-- C1: for every stop function with stops in ascending zoom order and
base 1.0, `valueForZoom(z)` returns the first stop's value when
`z` is at or below the first stop's zoom, the last stop's value when `z`
is at or beyond the last stop's zoom, and otherwise the linear
interpolation `a.val + ((z - a.zoom)/(b.zoom - a.zoom)) * (b.val - a.val)`
for the bracketing pair `(a,b)` with `a.zoom ≤ z < b.zoom`; in particular
stops `[(0,0),(10,100)]` give `valueForZoom(5) = 50`,
`valueForZoom(-5) = 0` and `valueForZoom(20) = 100`. -/
theorem valueForZoom_linear_claim (rp : ℚ → ℚ → ℚ)
    (stops : List MaplyVectorFunctionStop) (z : ℚ)
    (hlen : 2 ≤ stops.length)
    (hsort : List.Chain' (fun a b => a.zoom < b.zoom) stops) :
    (z ≤ (stops.headD dStop0).zoom →
        MaplyVectorFunctionStops.valueForZoom rp ⟨1, stops⟩ z = (stops.headD dStop0).val)
    ∧ ((stops.getLastD dStop0).zoom ≤ z →
        MaplyVectorFunctionStops.valueForZoom rp ⟨1, stops⟩ z = (stops.getLastD dStop0).val)
    ∧ (∀ i, ∀ hi : i + 1 < stops.length,
        (stops.get ⟨i, Nat.lt_of_succ_lt hi⟩).zoom ≤ z →
        z < (stops.get ⟨i + 1, hi⟩).zoom →
        MaplyVectorFunctionStops.valueForZoom rp ⟨1, stops⟩ z
          = (stops.get ⟨i, Nat.lt_of_succ_lt hi⟩).val
            + (z - (stops.get ⟨i, Nat.lt_of_succ_lt hi⟩).zoom)
                / ((stops.get ⟨i + 1, hi⟩).zoom - (stops.get ⟨i, Nat.lt_of_succ_lt hi⟩).zoom)
                * ((stops.get ⟨i + 1, hi⟩).val - (stops.get ⟨i, Nat.lt_of_succ_lt hi⟩).val))
    ∧ MaplyVectorFunctionStops.valueForZoom rp ⟨1, exampleNumStops⟩ 5 = 50
    ∧ MaplyVectorFunctionStops.valueForZoom rp ⟨1, exampleNumStops⟩ (-5) = 0
    ∧ MaplyVectorFunctionStops.valueForZoom rp ⟨1, exampleNumStops⟩ 20 = 100 := by
  obtain ⟨a, b, rest, rfl⟩ : ∃ a b rest, stops = a :: b :: rest := by
    match stops, hlen with
    | a :: b :: rest, _ => exact ⟨a, b, rest, rfl⟩
  refine ⟨?_, ?_, ?_, ?_, ?_, ?_⟩
  · intro hz
    simp only [List.headD_cons] at hz
    rw [MaplyVectorFunctionStops.valueForZoom]
    simp only [List.headD_cons, if_pos hz]
  · intro hz
    have hab : a.zoom < b.zoom := (List.chain'_cons.mp hsort).1
    have hble : b.zoom ≤ ((b :: rest).getLastD dStop0).zoom :=
      head_zoom_le_getLastD rest b (List.chain'_cons.mp hsort).2
    have hlast : ((a :: b :: rest).getLastD dStop0) = ((b :: rest).getLastD dStop0) := by
      simp [List.getLastD_cons]
    rw [hlast] at hz ⊢
    have hnza : ¬ z ≤ a.zoom := fun hza =>
      absurd (lt_of_lt_of_le hab (le_trans hble hz)) (not_lt.mpr hza)
    rw [MaplyVectorFunctionStops.valueForZoom]
    simp only [if_neg hnza]
    exact valueScan_last rp 1 z (b :: rest) a hsort hz
  · intro i hi hle hlt
    by_cases hza : z ≤ a.zoom
    · -- the early-exit branch; only the bracket at index 0 is possible,
      -- and there z = a.zoom makes the interpolation collapse to a.val
      cases i with
      | zero =>
        simp only [List.get] at hle hlt
        have hz : z - a.zoom = 0 := by
          have := le_antisymm hza hle
          rw [this]; ring
        rw [MaplyVectorFunctionStops.valueForZoom]
        simp only [if_pos hza, List.get, hz, zero_div, zero_mul, add_zero]
      | succ n =>
        have h0 : a.zoom < ((a :: b :: rest).get ⟨n + 1, Nat.lt_of_succ_lt hi⟩).zoom := by
          have := zoom_mono hsort (i := 0) (j := n + 1) (Nat.succ_pos n) (Nat.lt_of_succ_lt hi)
          simpa using this
        exact absurd (lt_of_lt_of_le h0 hle) (not_lt.mpr hza)
    · rw [MaplyVectorFunctionStops.valueForZoom]
      simp only [if_neg hza]
      rw [valueScan_bracket rp 1 z (b :: rest) a i hsort hi hle hlt]
      rw [stopRatioAt, if_pos rfl]
      ring
  · norm_num [MaplyVectorFunctionStops.valueForZoom, valueScan, stopRatioAt, exampleNumStops]
  · norm_num [MaplyVectorFunctionStops.valueForZoom, valueScan, stopRatioAt, exampleNumStops]
  · norm_num [MaplyVectorFunctionStops.valueForZoom, valueScan, stopRatioAt, exampleNumStops]

theorem valueForZoom_linear_claim_witness :
    (2 ≤ exampleNumStops.length
      ∧ List.Chain' (fun a b => a.zoom < b.zoom) exampleNumStops)
    ∧ MaplyVectorFunctionStops.valueForZoom rp0 ⟨1, exampleNumStops⟩ (-5)
        = (exampleNumStops.headD dStop0).val :=
  ⟨⟨by decide, by norm_num [exampleNumStops, List.chain'_cons]⟩,
   (valueForZoom_linear_claim rp0 exampleNumStops (-5) (by decide)
       (by norm_num [exampleNumStops, List.chain'_cons])).1
     (by norm_num [exampleNumStops, dStop0])⟩

/-- C2: for every stop function over text templates (at least two stops,
ascending zooms), `textForZoom(z)` never interpolates: it returns the
first stop's template when `z` is at or below the first stop's zoom, the
lower bracketing stop's template when `a.zoom ≤ z < b.zoom`, and the last
stop's template when `z` is beyond the last stop's zoom; text stops
`[(0,"low"),(10,"high")]` give `textForZoom(5) = "low"` and
`textForZoom(15) = "high"`. -/
theorem textForZoom_step_claim (stops : List MaplyVectorFunctionStop) (z : ℚ)
    (hlen : 2 ≤ stops.length)
    (hsort : List.Chain' (fun a b => a.zoom < b.zoom) stops) :
    (z ≤ (stops.headD dStop0).zoom →
        MaplyVectorFunctionStops.textForZoom ⟨1, stops⟩ z = (stops.headD dStop0).textField)
    ∧ (∀ i, ∀ hi : i + 1 < stops.length,
        (stops.get ⟨i, Nat.lt_of_succ_lt hi⟩).zoom ≤ z →
        z < (stops.get ⟨i + 1, hi⟩).zoom →
        MaplyVectorFunctionStops.textForZoom ⟨1, stops⟩ z
          = (stops.get ⟨i, Nat.lt_of_succ_lt hi⟩).textField)
    ∧ ((stops.getLastD dStop0).zoom ≤ z →
        MaplyVectorFunctionStops.textForZoom ⟨1, stops⟩ z = (stops.getLastD dStop0).textField)
    ∧ MaplyVectorFunctionStops.textForZoom ⟨1, exampleTextStops⟩ 5
        = MapboxRegexField.parse "low"
    ∧ MaplyVectorFunctionStops.textForZoom ⟨1, exampleTextStops⟩ 15
        = MapboxRegexField.parse "high" := by
  obtain ⟨a, b, rest, rfl⟩ : ∃ a b rest, stops = a :: b :: rest := by
    match stops, hlen with
    | a :: b :: rest, _ => exact ⟨a, b, rest, rfl⟩
  refine ⟨?_, ?_, ?_, by decide, by decide⟩
  · intro hz
    simp only [List.headD_cons] at hz
    rw [MaplyVectorFunctionStops.textForZoom]
    simp only [List.headD_cons, if_pos hz]
  · intro i hi hle hlt
    by_cases hza : z ≤ a.zoom
    · cases i with
      | zero =>
        rw [MaplyVectorFunctionStops.textForZoom]
        simp only [if_pos hza, List.get]
      | succ n =>
        have h0 : a.zoom < ((a :: b :: rest).get ⟨n + 1, Nat.lt_of_succ_lt hi⟩).zoom := by
          have := zoom_mono hsort (i := 0) (j := n + 1) (Nat.succ_pos n) (Nat.lt_of_succ_lt hi)
          simpa using this
        exact absurd (lt_of_lt_of_le h0 hle) (not_lt.mpr hza)
    · rw [MaplyVectorFunctionStops.textForZoom]
      simp only [if_neg hza]
      exact textScan_bracket z (b :: rest) a i hsort hi hle hlt
  · intro hz
    have hab : a.zoom < b.zoom := (List.chain'_cons.mp hsort).1
    have hble : b.zoom ≤ ((b :: rest).getLastD dStop0).zoom :=
      head_zoom_le_getLastD rest b (List.chain'_cons.mp hsort).2
    have hlast : ((a :: b :: rest).getLastD dStop0) = ((b :: rest).getLastD dStop0) := by
      simp [List.getLastD_cons]
    rw [hlast] at hz ⊢
    have hnza : ¬ z ≤ a.zoom := fun hza =>
      absurd (lt_of_lt_of_le hab (le_trans hble hz)) (not_lt.mpr hza)
    rw [MaplyVectorFunctionStops.textForZoom]
    simp only [if_neg hnza]
    exact textScan_last z (b :: rest) a hsort hz

theorem textForZoom_step_claim_witness :
    (2 ≤ exampleTextStops.length
      ∧ List.Chain' (fun a b => a.zoom < b.zoom) exampleTextStops)
    ∧ MaplyVectorFunctionStops.textForZoom ⟨1, exampleTextStops⟩ 25
        = (exampleTextStops.getLastD dStop0).textField :=
  ⟨⟨by decide, by norm_num [exampleTextStops, List.chain'_cons]⟩,
   (textForZoom_step_claim exampleTextStops 25 (by decide)
       (by norm_num [exampleTextStops, List.chain'_cons])).2.2.1
     (by decide)⟩

/-! ## The spec's description of build, for comparison -/

/-- Spec wording: the value appended for a key chunk is that of the first
key whose lookup yields a non-empty value. -/
def keyChunkLookupVal (attrs : AttrDict) (keys : List String) : String :=
  ((keys.find? fun k => attrs.hasField k && attrs.getString k != "").map
    (fun k => attrs.getString k)).getD ""

/-- Spec wording: concatenation of literal chunks and resolved key
chunks. -/
def specConcat (attrs : AttrDict) (chunks : List MapboxTextChunk) : String :=
  String.join (chunks.map fun c => if c.str ≠ "" then c.str else keyChunkLookupVal attrs c.keys)

/-- Whether some key lookup is attempted across the template (a key chunk
with a non-empty key list exists). -/
def lookupAttempted (chunks : List MapboxTextChunk) : Bool :=
  chunks.any fun c => c.str == "" && !c.keys.isEmpty

/-- Whether some attempted key is present in the attribute dictionary
(even with an empty value). -/
def anyLookupKeyPresent (attrs : AttrDict) (chunks : List MapboxTextChunk) : Bool :=
  chunks.any fun c => c.str == "" && c.keys.any fun k => attrs.hasField k

/-- Whether some attempted key resolves to a non-empty value — the
claim's reading of a "successful" lookup. -/
def anyLookupKeyNonempty (attrs : AttrDict) (chunks : List MapboxTextChunk) : Bool :=
  chunks.any fun c =>
    c.str == "" && c.keys.any fun k => attrs.hasField k && attrs.getString k != ""

/-- `build` as the claim words it: empty result when a lookup was
attempted and none yielded a non-empty value. -/
def claimedBuild (f : MapboxRegexField) (attrs : AttrDict) : String :=
  if lookupAttempted f.chunks && !anyLookupKeyNonempty attrs f.chunks then ""
  else trimString (specConcat attrs f.chunks)

/-- `build` as the code has it: empty result when a lookup was attempted
and none of the attempted keys was present at all. -/
def amendedBuild (f : MapboxRegexField) (attrs : AttrDict) : String :=
  if lookupAttempted f.chunks && !anyLookupKeyPresent attrs f.chunks then ""
  else trimString (specConcat attrs f.chunks)

lemma foldl_append_str (l : List String) :
    ∀ a : String, List.foldl (fun r s => r ++ s) a l = a ++ List.foldl (fun r s => r ++ s) "" l := by
  induction l with
  | nil => intro a; simp
  | cons s l ih =>
    intro a
    simp only [List.foldl_cons]
    rw [ih (a ++ s), ih ("" ++ s), String.empty_append, String.append_assoc]

lemma buildKeys_eq (attrs : AttrDict) :
    ∀ keys : List String,
      buildKeys attrs keys
        = (keyChunkLookupVal attrs keys, keys.any fun k => attrs.hasField k)
  | [] => by simp [buildKeys, keyChunkLookupVal]
  | k :: ks => by
    rw [buildKeys]
    by_cases hf : attrs.hasField k
    · by_cases hv : attrs.getString k ≠ ""
      · have hvb : (attrs.getString k != "") = true := by simpa [bne_iff_ne] using hv
        simp [hf, hv, hvb, keyChunkLookupVal, List.find?]
      · simp only [not_not] at hv
        simp [hf, hv, keyChunkLookupVal, List.find?, buildKeys_eq attrs ks]
    · simp only [Bool.not_eq_true] at hf
      simp [hf, keyChunkLookupVal, List.find?, buildKeys_eq attrs ks]

lemma join_cons_str (x : String) (l : List String) :
    String.join (x :: l) = x ++ String.join l := by
  simp only [String.join, List.foldl_cons, String.empty_append]
  exact foldl_append_str l x

lemma specConcat_cons (attrs : AttrDict) (c : MapboxTextChunk) (cs : List MapboxTextChunk) :
    specConcat attrs (c :: cs)
      = (if c.str ≠ "" then c.str else keyChunkLookupVal attrs c.keys) ++ specConcat attrs cs := by
  simp only [specConcat, List.map_cons]
  exact join_cons_str _ _

lemma buildChunks_eq (attrs : AttrDict) :
    ∀ chunks : List MapboxTextChunk,
      buildChunks attrs chunks
        = (specConcat attrs chunks, anyLookupKeyPresent attrs chunks, lookupAttempted chunks)
  | [] => by simp [buildChunks, specConcat, anyLookupKeyPresent, lookupAttempted, String.join]
  | c :: cs => by
    rw [buildChunks, buildChunks_eq attrs cs, specConcat_cons]
    by_cases hstr : c.str ≠ ""
    · have hb : (c.str == "") = false := by
        simp only [beq_eq_false_iff_ne, ne_eq]; exact hstr
      rw [if_pos hstr, if_pos hstr]
      simp [anyLookupKeyPresent, lookupAttempted, hb]
    · simp only [not_not] at hstr
      have hb : (c.str == "") = true := by simp [hstr]
      have hstr' : ¬ c.str ≠ "" := by simp [hstr]
      rw [if_neg hstr', if_neg hstr']
      rw [buildKeys_eq attrs c.keys]
      simp [anyLookupKeyPresent, lookupAttempted, hb]

/-- C4 (counterexample): for the template `"x{name}"` and an attribute
set whose `name` field is present but empty, a lookup is attempted and no
key yields a non-empty value, yet `build` returns the partial string
`"x"`, not the empty string the claim requires. -/
theorem build_claim_counterexample :
    lookupAttempted (MapboxRegexField.parse "x\x7bname\x7d").chunks = true
    ∧ anyLookupKeyNonempty [("name", "")] (MapboxRegexField.parse "x\x7bname\x7d").chunks
        = false
    ∧ claimedBuild (MapboxRegexField.parse "x\x7bname\x7d") [("name", "")] = ""
    ∧ MapboxRegexField.build (MapboxRegexField.parse "x\x7bname\x7d") [("name", "")] = "x" :=
  ⟨by decide, by decide, by decide, by decide⟩

/-- C4 (amended): `build(attrs)` concatenates literal chunks verbatim
and, for each key chunk, appends the value of the first key whose lookup
yields a non-empty value; if at least one key lookup was attempted across
the whole template and none of the attempted keys is present in the
attribute dictionary (a key present with an empty value counts as found),
build returns the empty string; otherwise the result is trimmed of
leading and trailing whitespace.  In particular `"{name}"` with
`{name: "Paris"}` builds `"Paris"`, and builds `""` when `name` is
absent. -/
theorem build_claim_amended (f : MapboxRegexField) (attrs : AttrDict) :
    MapboxRegexField.build f attrs = amendedBuild f attrs
    ∧ MapboxRegexField.build (MapboxRegexField.parse "\x7bname\x7d") [("name", "Paris")]
        = "Paris"
    ∧ MapboxRegexField.build (MapboxRegexField.parse "\x7bname\x7d") [] = "" := by
  refine ⟨?_, by decide, by decide⟩
  rw [MapboxRegexField.build, amendedBuild, buildChunks_eq]

/-! ## C9: the colon-suffix fallback key -/

lemma splitChars_ne_nil (isSep : Char → Bool) :
    ∀ cs : List Char, splitChars isSep cs ≠ []
  | [] => by simp [splitChars]
  | c :: cs => by
    rw [splitChars]
    rcases h : splitChars isSep cs with - | ⟨t, ts⟩
    · simp
    · by_cases hs : isSep c <;> simp [hs]

lemma splitChars_append_nonsep (isSep : Char → Bool) :
    ∀ (l r : List Char), (∀ c ∈ l, isSep c = false) →
      splitChars isSep (l ++ r)
        = match splitChars isSep r with
          | [] => [l]
          | t :: ts => (l ++ t) :: ts
  | [], r, _ => by
    rcases h : splitChars isSep r with - | ⟨t, ts⟩
    · exact absurd h (splitChars_ne_nil isSep r)
    · simp [h]
  | c :: l, r, hl => by
    have hc : isSep c = false := hl c (List.mem_cons_self c l)
    have hl' : ∀ x ∈ l, isSep x = false := fun x hx => hl x (List.mem_cons_of_mem c hx)
    rcases h : splitChars isSep r with - | ⟨t, ts⟩
    · exact absurd h (splitChars_ne_nil isSep r)
    · have ih := splitChars_append_nonsep isSep l r hl'
      rw [h] at ih
      simp only [List.cons_append, splitChars, hc, List.append_eq, Bool.false_eq_true,
        if_false]
      rw [ih]

lemma colonMatchIdx_colon :
    ∀ (cs : List Char) (i : ℕ), colonMatchIdx cs = some i → cs[i]? = some ':'
  | [], i, h => Option.noConfusion h
  | c :: cs, i, h => by
    rw [colonMatchIdx] at h
    by_cases hc : c = ':' ∧ cs ≠ [] ∧ cs.all isWordChar
    · rw [if_pos hc] at h
      cases h
      simpa using hc.1
    · rw [if_neg hc] at h
      rcases hj : colonMatchIdx cs with - | j
      · rw [hj] at h; exact Option.noConfusion h
      · rw [hj] at h
        simp only [Option.map_some'] at h
        cases h
        simpa using colonMatchIdx_colon cs j hj

lemma colonMatchIdx_lt (cs : List Char) (i : ℕ) (h : colonMatchIdx cs = some i) :
    i < cs.length := by
  have hcol := colonMatchIdx_colon cs i h
  by_contra hge
  rw [List.getElem?_eq_none (le_of_not_lt hge)] at hcol
  exact Option.noConfusion hcol

lemma underscored_ne (s : String) (i : ℕ) (hci : colonMatchIdx s.data = some i) :
    (⟨s.data.set i '_'⟩ : String) ≠ s := by
  intro h
  have hd : (s.data.set i '_') = s.data := congrArg String.data h
  have hlt : i < s.data.length := colonMatchIdx_lt s.data i hci
  have h1 : (s.data.set i '_')[i]? = some '_' := List.getElem?_set_self (by simpa using hlt)
  rw [hd, colonMatchIdx_colon s.data i hci] at h1
  simp at h1

/-- The template string `"{" ++ s ++ "}"`, built at the character level. -/
def braced (s : String) : String :=
  ⟨'\x7b' :: (s.data ++ ['\x7d'])⟩

/-- C9: a key segment matching `":\w+$"` (a trailing colon-prefixed
suffix) is stored with two lookup keys — the original key followed by the
key with that colon replaced by an underscore — and `build` therefore
resolves the chunk when the attribute set contains only the underscore
form. -/
theorem colon_fallback_claim (s v : String) (i : ℕ)
    (hs : s.data ≠ [])
    (hnb : ∀ c ∈ s.data, isBrace c = false)
    (hci : colonMatchIdx s.data = some i)
    (hv : v ≠ "") :
    (MapboxRegexField.parse (braced s)).chunks
        = [⟨"", [s, ⟨s.data.set i '_'⟩]⟩]
    ∧ MapboxRegexField.build (MapboxRegexField.parse (braced s))
        [(⟨s.data.set i '_'⟩, v)] = trimString v := by
  have hsne : s ≠ "" := by
    intro h
    rw [h] at hs
    exact hs rfl
  have hmk : (⟨s.data⟩ : String) = s := rfl
  have hsplit : splitChars isBrace ('\x7b' :: (s.data ++ ['\x7d'])) = [[], s.data, []] := by
    have h2 : splitChars isBrace ['\x7d'] = [[], []] := by
      simp [splitChars, isBrace]
    have h1 := splitChars_append_nonsep isBrace s.data ['\x7d'] hnb
    rw [h2] at h1
    simp only [List.append_nil] at h1
    rw [splitChars, h1]
    simp [isBrace]
  have htoks : fieldTokens (braced s) = ["", s] := by
    rw [fieldTokens]
    have hdata : (braced s).data = '\x7b' :: (s.data ++ ['\x7d']) := rfl
    rw [if_neg (by rw [hdata]; simp)]
    rw [hdata, hsplit]
    simp only [List.map_cons, List.map_nil, hmk]
    simp [List.filter, hsne]
  have hchunks : (MapboxRegexField.parse (braced s)).chunks
      = [⟨"", [s, ⟨s.data.set i '_'⟩]⟩] := by
    rw [MapboxRegexField.parse]
    have hhead : (braced s).data.head? = some '\x7b' := rfl
    simp only [hhead, htoks]
    rw [parseChunks, if_pos rfl, parseChunks, if_neg hsne]
    simp [parseChunks, mkKeyChunk, hci]
  refine ⟨hchunks, ?_⟩
  rw [MapboxRegexField.build, hchunks]
  have hne : (⟨s.data.set i '_'⟩ : String) ≠ s := underscored_ne s i hci
  have hb1 : (s == (⟨s.data.set i '_'⟩ : String)) = false :=
    beq_eq_false_iff_ne.mpr (Ne.symm hne)
  have hlook1 : List.lookup s ([(⟨s.data.set i '_'⟩, v)] : AttrDict) = none := by
    simp [List.lookup, hb1]
  have hlook2 : List.lookup (⟨s.data.set i '_'⟩ : String)
      ([(⟨s.data.set i '_'⟩, v)] : AttrDict) = some v := by
    simp [List.lookup]
  simp only [buildChunks, buildKeys, AttrDict.hasField, AttrDict.getString,
    hlook1, hlook2, Option.isSome_none, Option.isSome_some, Option.getD_some]
  simp [hv]

theorem colon_fallback_claim_witness :
    (("name:en").data ≠ []
      ∧ (∀ c ∈ ("name:en").data, isBrace c = false)
      ∧ colonMatchIdx ("name:en").data = some 4
      ∧ ("Paris" : String) ≠ "")
    ∧ ((MapboxRegexField.parse (braced "name:en")).chunks
          = [⟨"", ["name:en", ⟨("name:en").data.set 4 '_'⟩]⟩]
        ∧ MapboxRegexField.build (MapboxRegexField.parse (braced "name:en"))
            [(⟨("name:en").data.set 4 '_'⟩, "Paris")] = trimString "Paris") :=
  ⟨⟨by decide, by decide, by decide, by decide⟩,
   colon_fallback_claim "name:en" "Paris" 4 (by decide) (by decide) (by decide) (by decide)⟩

/-! ## The color parser -/

/-- Hex digit recognizer of `strtoul` base 16 (whitespace/sign handling
of the C function is not modelled; the repository's hex colors place the
digits immediately after `#`). -/
def isHexDigitC (c : Char) : Bool :=
  (48 ≤ c.toNat && c.toNat ≤ 57) || (97 ≤ c.toNat && c.toNat ≤ 102)
    || (65 ≤ c.toNat && c.toNat ≤ 70)

/-- The numeric value of a hex digit (0 for other characters). -/
def hexDigitVal (c : Char) : ℕ :=
  if 48 ≤ c.toNat ∧ c.toNat ≤ 57 then c.toNat - 48
  else if 97 ≤ c.toNat ∧ c.toNat ≤ 102 then c.toNat - 87
  else if 65 ≤ c.toNat ∧ c.toNat ≤ 70 then c.toNat - 55
  else 0

/-- `strtoul(p, &end, 16)`: greedily consume hex digits; returns the
accumulated value and the number of characters consumed (the offset of
`end`). -/
def hexScan : List Char → ℕ → ℕ × ℕ
  | [], acc => (acc, 0)
  | c :: cs, acc =>
    if isHexDigitC c then
      let r := hexScan cs (acc * 16 + hexDigitVal c)
      (r.1, r.2 + 1)
    else (acc, 0)

/-- `x |= x << 4` on a nibble-valued `uint8_t`. -/
def nibDup (x : ℕ) : ℕ :=
  x ||| (x <<< 4)

/-- The common tail of the hex branch: either
`RGBAColor(r,g,b).withAlphaMultiply(alpha/255)` or
`RGBAColor(r,g,b,alpha)`. -/
def hexAssemble (red green blue alpha : ℕ) (multiplyAlpha : Bool) : RGBAColor :=
  if multiplyAlpha then
    RGBAColor.withAlphaMultiply ⟨red, green, blue, 255⟩ ((alpha : ℚ) / 255)
  else ⟨red, green, blue, alpha⟩

/-- Channel extraction by string size: `#RGB`, `#RGBA`, `#RRGGBB`,
`#RRGGBBAA`; any other size is unrecognized and yields the default. -/
def hexFromVal (iVal size : ℕ) (defVal : Option RGBAColor) (multiplyAlpha : Bool) :
    Except String (Option RGBAColor) :=
  if size = 4 then
    .ok (some (hexAssemble (nibDup ((iVal >>> 8) &&& 15)) (nibDup ((iVal >>> 4) &&& 15))
      (nibDup (iVal &&& 15)) 255 multiplyAlpha))
  else if size = 5 then
    .ok (some (hexAssemble (nibDup ((iVal >>> 12) &&& 15)) (nibDup ((iVal >>> 8) &&& 15))
      (nibDup ((iVal >>> 4) &&& 15)) (nibDup (iVal &&& 15)) multiplyAlpha))
  else if size = 7 then
    .ok (some (hexAssemble ((iVal >>> 16) &&& 255) ((iVal >>> 8) &&& 255) (iVal &&& 255)
      255 multiplyAlpha))
  else if size = 9 then
    .ok (some (hexAssemble ((iVal >>> 24) &&& 255) ((iVal >>> 16) &&& 255)
      ((iVal >>> 8) &&& 255) (iVal &&& 255) multiplyAlpha))
  else .ok defVal

/-- The `#` branch of `parseColor`: parse the digits after `#` with
`strtoul`; reject trailing unconsumed characters; truncate to `uint32_t`;
dispatch on the string size. -/
def parseHexColor (s : String) (defVal : Option RGBAColor) (multiplyAlpha : Bool) :
    Except String (Option RGBAColor) :=
  let r := hexScan (s.data.drop 1) 0
  if r.2 + 1 ≠ s.data.length then .ok defVal
  else hexFromVal (r.1 % 2 ^ 32) s.data.length defVal multiplyAlpha

/-- The value of a decimal digit string. -/
def natOfDigits (l : List Char) : ℕ :=
  l.foldl (fun acc c => acc * 10 + (c.toNat - 48)) 0

/-- `std::stoi`: skip whitespace, optional sign, then decimal digits
(trailing characters are ignored); throws `std::invalid_argument` when no
digit is found. -/
def stoiM (s : String) : Except String ℤ :=
  let cs := s.data.dropWhile cIsSpace
  match cs with
  | '-' :: t =>
    if t.takeWhile Char.isDigit = [] then .error "stoi: invalid argument"
    else .ok (-(natOfDigits (t.takeWhile Char.isDigit) : ℤ))
  | '+' :: t =>
    if t.takeWhile Char.isDigit = [] then .error "stoi: invalid argument"
    else .ok (natOfDigits (t.takeWhile Char.isDigit) : ℤ)
  | t =>
    if t.takeWhile Char.isDigit = [] then .error "stoi: invalid argument"
    else .ok (natOfDigits (t.takeWhile Char.isDigit) : ℤ)

/-- `std::stod` restricted to plain decimal notation (no exponents, which
the repository's color strings never use): skip whitespace, optional
sign, integer digits, optional fractional digits; throws when no digit is
found. -/
def stodM (s : String) : Except String ℚ :=
  let cs := s.data.dropWhile cIsSpace
  let sign : ℚ × List Char :=
    match cs with
    | '-' :: t => (-1, t)
    | '+' :: t => (1, t)
    | t => (1, t)
  let intDigits := sign.2.takeWhile Char.isDigit
  let fracDigits :=
    match sign.2.drop intDigits.length with
    | '.' :: t => t.takeWhile Char.isDigit
    | _ => []
  if intDigits = [] ∧ fracDigits = [] then .error "stod: invalid argument"
  else
    .ok (sign.1 * ((natOfDigits intDigits : ℚ)
      + (natOfDigits fracDigits : ℚ) / (10 : ℚ) ^ fracDigits.length))

def ratAbs (q : ℚ) : ℚ :=
  if q < 0 then -q else q

/-- Modelled from the spec: `RGBAColor::FromHSL` is not under src/; the
spec prescribes the standard HSL→RGB conversion. -/
def fromHSL (hue : ℤ) (s l : ℚ) : RGBAColor :=
  let h := Int.emod hue 360
  let c := (1 - ratAbs (2 * l - 1)) * s
  let hq : ℚ := (h : ℚ) / 60
  let m2 : ℚ := hq - 2 * ((Rat.floor (hq / 2) : ℤ) : ℚ)
  let x := c * (1 - ratAbs (m2 - 1))
  let m := l - c / 2
  let sector := Int.ediv h 60
  let rgb1 : ℚ × ℚ × ℚ :=
    if sector = 0 then (c, x, 0)
    else if sector = 1 then (x, c, 0)
    else if sector = 2 then (0, c, x)
    else if sector = 3 then (0, x, c)
    else if sector = 4 then (x, 0, c)
    else (c, 0, x)
  mkColorQ ((rgb1.1 + m) * 255) ((rgb1.2.1 + m) * 255) ((rgb1.2.2 + m) * 255) 255

/-- The `rgb(` branch: three integer components, full alpha; the
`multiplyAlpha` flag is not consulted. -/
def parseRgb (cs : List Char) (defVal : Option RGBAColor) :
    Except String (Option RGBAColor) :=
  match colorTokens cs with
  | [tr, tg, tb] => do
    let red ← stoiM tr
    let green ← stoiM tg
    let blue ← stoiM tb
    pure (some (mkColorI red green blue 255))
  | _ => .ok defVal

/-- The `rgba(` branch: three integer components and a fractional alpha;
with `multiplyAlpha` the channels are premultiplied, otherwise the alpha
channel is `(int)(255.0 * alpha)`. -/
def parseRgba (cs : List Char) (defVal : Option RGBAColor) (multiplyAlpha : Bool) :
    Except String (Option RGBAColor) :=
  match colorTokens cs with
  | [tr, tg, tb, ta] => do
    let red ← stoiM tr
    let green ← stoiM tg
    let blue ← stoiM tb
    let alpha ← stodM ta
    if multiplyAlpha then
      pure (some (mkColorQ ((red : ℚ) * alpha) ((green : ℚ) * alpha) ((blue : ℚ) * alpha)
        (255 * alpha)))
    else
      pure (some (mkColorI red green blue (cIntTrunc (255 * alpha))))
  | _ => .ok defVal

/-- The `hsl(` branch. -/
def parseHsl (cs : List Char) (defVal : Option RGBAColor) :
    Except String (Option RGBAColor) :=
  match colorTokens cs with
  | [th, ts, tl] => do
    let hue ← stoiM th
    let sat ← stoiM ts
    let light ← stoiM tl
    pure (some (fromHSL hue ((sat : ℚ) / 100) ((light : ℚ) / 100)))
  | _ => .ok defVal

/-- The `hsla(` branch. -/
def parseHsla (cs : List Char) (defVal : Option RGBAColor) (multiplyAlpha : Bool) :
    Except String (Option RGBAColor) :=
  match colorTokens cs with
  | [th, ts, tl, ta] => do
    let hue ← stoiM th
    let sat ← stoiM ts
    let light ← stoiM tl
    let alpha ← stodM ta
    let c := fromHSL hue ((sat : ℚ) / 100) ((light : ℚ) / 100)
    pure (some (if multiplyAlpha then c.withAlphaMultiply alpha else c.withAlpha alpha))
  | _ => .ok defVal

/-- Embedding of the static `parseColor` helper.  An empty string or an
unrecognized form yields the caller-supplied default; `std::stoi` /
`std::stod` calls inside a recognized `rgb(`/`rgba(`/`hsl(`/`hsla(`
branch may throw, which surfaces as an `Except.error`. -/
def parseColor (str : String) (defVal : Option RGBAColor) (multiplyAlpha : Bool) :
    Except String (Option RGBAColor) :=
  if str.data = [] then .ok defVal
  else if str.data.head? = some '#' then parseHexColor str defVal multiplyAlpha
  else if str.data.take 4 = ("rgb(").data then parseRgb (str.data.drop 4) defVal
  else if str.data.take 5 = ("rgba(").data then parseRgba (str.data.drop 5) defVal multiplyAlpha
  else if str.data.take 4 = ("hsl(").data then parseHsl (str.data.drop 4) defVal
  else if str.data.take 5 = ("hsla(").data then parseHsla (str.data.drop 5) defVal multiplyAlpha
  else .ok defVal

/-! ## C6: a malformed component inside a recognized prefix throws -/

/-- C6 (code bug): the claim says every malformed color string makes
`parseColor` log and return the caller-supplied default with no escaping
exception; but for a recognized `rgb(` prefix with the right component
count and a non-numeric component, the code calls `std::stoi`, which
throws `std::invalid_argument`, and the exception escapes `parseColor`. -/
theorem parseColor_rgb_nonnumeric_claim :
    parseColor "rgb(a,b,c)" (some ⟨128, 128, 128, 255⟩) false
      = Except.error "stoi: invalid argument"
    ∧ ∀ v : Option RGBAColor,
        parseColor "rgb(a,b,c)" (some ⟨128, 128, 128, 255⟩) false ≠ Except.ok v := by
  refine ⟨rfl, fun v h => ?_⟩
  rw [show parseColor "rgb(a,b,c)" (some ⟨128, 128, 128, 255⟩) false
      = Except.error "stoi: invalid argument" from rfl] at h
  exact Except.noConfusion h

/-! ## C7: the rgba alpha channel truncates -/

/-- C7 (counterexample): the claim says
`parseColor("rgba(1,2,3,0.5)", multiplyAlpha=false)` has alpha
`round(0.5*255) = 128`; the code computes `(int)(255.0*0.5) = 127`
(truncation), as its own unit test (`0x7f010203`) records. -/
theorem rgba_alpha_claim_counterexample :
    parseColor "rgba(1,2,3,0.5)" none false = Except.ok (some ⟨1, 2, 3, 127⟩)
    ∧ (127 : ℕ) ≠ 128 := by
  refine ⟨?_, by decide⟩
  have ha : stodM "0.5" = .ok (1 / 2) := by
    rw [show stodM "0.5" = .ok (1 * (((natOfDigits ['0'] : ℕ) : ℚ)
      + ((natOfDigits ['5'] : ℕ) : ℚ) / 10 ^ (['5'].length))) from rfl]
    norm_num [show natOfDigits ['0'] = 0 from rfl, show natOfDigits ['5'] = 5 from rfl]
  rw [show parseColor "rgba(1,2,3,0.5)" none false
      = (stodM "0.5").bind
          (fun alpha => pure (some (mkColorI 1 2 3 (cIntTrunc (255 * alpha))))) from rfl]
  rw [ha]
  show Except.ok (some (mkColorI 1 2 3 (cIntTrunc (255 * (1 / 2))))) = _
  have htr : cIntTrunc (255 * ((1 : ℚ) / 2)) = 127 := by norm_num [cIntTrunc]
  rw [htr]
  rfl

/-- C7 (amended): for `rgba(r,g,b,a)` with `multiplyAlpha = false`, the
alpha channel is `(int)(255.0 * a)` — the fraction scaled to the 8-bit
range and truncated toward zero (then reduced as a `uint8_t`) — which is
127, not 128, for `a = 0.5`. -/
theorem rgba_alpha_claim_amended (rest : List Char) (d : Option RGBAColor)
    (r g b : ℤ) (a : ℚ) (t1 t2 t3 t4 : String)
    (htoks : colorTokens rest = [t1, t2, t3, t4])
    (hr : stoiM t1 = .ok r) (hg : stoiM t2 = .ok g) (hb : stoiM t3 = .ok b)
    (ha : stodM t4 = .ok a) :
    parseColor ⟨'r' :: 'g' :: 'b' :: 'a' :: '(' :: rest⟩ d false
      = Except.ok (some (mkColorI r g b (cIntTrunc (255 * a)))) := by
  rw [show parseColor ⟨'r' :: 'g' :: 'b' :: 'a' :: '(' :: rest⟩ d false
      = parseRgba rest d false from rfl]
  rw [parseRgba, htoks]
  show (stoiM t1).bind _ = _
  rw [hr]
  show (stoiM t2).bind _ = _
  rw [hg]
  show (stoiM t3).bind _ = _
  rw [hb]
  show (stodM t4).bind _ = _
  rw [ha]
  rfl

theorem rgba_alpha_claim_amended_witness :
    (colorTokens ("1,2,3,0.5)").data = ["1", "2", "3", "0.5"]
      ∧ stoiM "1" = .ok 1 ∧ stodM "0.5" = .ok (1 / 2))
    ∧ parseColor ⟨'r' :: 'g' :: 'b' :: 'a' :: '(' :: ("1,2,3,0.5)").data⟩ none false
        = Except.ok (some (mkColorI 1 2 3 (cIntTrunc (255 * (1 / 2))))) :=
  ⟨⟨rfl, rfl, by
      rw [show stodM "0.5" = .ok (1 * (((natOfDigits ['0'] : ℕ) : ℚ)
        + ((natOfDigits ['5'] : ℕ) : ℚ) / 10 ^ (['5'].length))) from rfl]
      norm_num [show natOfDigits ['0'] = 0 from rfl, show natOfDigits ['5'] = 5 from rfl]⟩,
   rgba_alpha_claim_amended ("1,2,3,0.5)").data none 1 2 3 (1 / 2) "1" "2" "3" "0.5"
     rfl rfl rfl rfl
     (by
      rw [show stodM "0.5" = .ok (1 * (((natOfDigits ['0'] : ℕ) : ℚ)
        + ((natOfDigits ['5'] : ℕ) : ℚ) / 10 ^ (['5'].length))) from rfl]
      norm_num [show natOfDigits ['0'] = 0 from rfl, show natOfDigits ['5'] = 5 from rfl])⟩

/-! ## C8: short-hex nibble duplication -/

lemma hexDigitVal_lt (c : Char) : hexDigitVal c < 16 := by
  rw [hexDigitVal]
  split
  · omega
  · split
    · omega
    · split <;> omega

lemma land15 (n : ℕ) : n &&& 15 = n % 16 := by
  have h := Nat.and_pow_two_sub_one_eq_mod n 4
  norm_num at h
  exact h

lemma land255 (n : ℕ) : n &&& 255 = n % 256 := by
  have h := Nat.and_pow_two_sub_one_eq_mod n 8
  norm_num at h
  exact h

lemma nibDup_eq (x : ℕ) (h : x < 16) : nibDup x = 17 * x := by
  have hall : ∀ y < 16, nibDup y = 17 * y := by decide
  exact hall x h

lemma hexScan_all :
    ∀ (l : List Char), (∀ c ∈ l, isHexDigitC c = true) → ∀ acc : ℕ,
      hexScan l acc = (l.foldl (fun a c => a * 16 + hexDigitVal c) acc, l.length)
  | [], _, acc => by simp [hexScan]
  | c :: l, hall, acc => by
    have hc : isHexDigitC c = true := hall c (List.mem_cons_self c l)
    have hl : ∀ x ∈ l, isHexDigitC x = true := fun x hx => hall x (List.mem_cons_of_mem c hx)
    rw [hexScan, if_pos hc, hexScan_all l hl (acc * 16 + hexDigitVal c)]
    simp

lemma hexFromVal_size4 (a b c : ℕ) (d : Option RGBAColor)
    (ha : a < 16) (hb : b < 16) (hc : c < 16) :
    hexFromVal (256 * a + 16 * b + c) 4 d false
      = .ok (some ⟨17 * a, 17 * b, 17 * c, 255⟩) := by
  rw [hexFromVal, if_pos rfl]
  rw [Nat.shiftRight_eq_div_pow, Nat.shiftRight_eq_div_pow, land15, land15, land15]
  norm_num
  have h1 : (256 * a + 16 * b + c) / 256 % 16 = a := by omega
  have h2 : (256 * a + 16 * b + c) / 16 % 16 = b := by omega
  have h3 : (256 * a + 16 * b + c) % 16 = c := by omega
  rw [h1, h2, h3, nibDup_eq a ha, nibDup_eq b hb, nibDup_eq c hc]
  rw [hexAssemble, if_neg (by simp)]

lemma hexFromVal_size5 (a b c e : ℕ) (d : Option RGBAColor)
    (ha : a < 16) (hb : b < 16) (hc : c < 16) (he : e < 16) :
    hexFromVal (4096 * a + 256 * b + 16 * c + e) 5 d false
      = .ok (some ⟨17 * a, 17 * b, 17 * c, 17 * e⟩) := by
  rw [hexFromVal, if_neg (by norm_num), if_pos rfl]
  rw [Nat.shiftRight_eq_div_pow, Nat.shiftRight_eq_div_pow, Nat.shiftRight_eq_div_pow,
    land15, land15, land15, land15]
  norm_num
  have h1 : (4096 * a + 256 * b + 16 * c + e) / 4096 % 16 = a := by omega
  have h2 : (4096 * a + 256 * b + 16 * c + e) / 256 % 16 = b := by omega
  have h3 : (4096 * a + 256 * b + 16 * c + e) / 16 % 16 = c := by omega
  have h4 : (4096 * a + 256 * b + 16 * c + e) % 16 = e := by omega
  rw [h1, h2, h3, h4, nibDup_eq a ha, nibDup_eq b hb, nibDup_eq c hc, nibDup_eq e he]
  rw [hexAssemble, if_neg (by simp)]

lemma hexFromVal_size7 (a b c : ℕ) (d : Option RGBAColor)
    (ha : a < 16) (hb : b < 16) (hc : c < 16) :
    hexFromVal (1114112 * a + 4352 * b + 17 * c) 7 d false
      = .ok (some ⟨17 * a, 17 * b, 17 * c, 255⟩) := by
  rw [hexFromVal, if_neg (by norm_num), if_neg (by norm_num), if_pos rfl]
  rw [Nat.shiftRight_eq_div_pow, Nat.shiftRight_eq_div_pow, land255, land255, land255]
  norm_num
  have hd1 : (1114112 * a + 4352 * b + 17 * c) / 65536 = 17 * a := by omega
  have hd2 : (1114112 * a + 4352 * b + 17 * c) / 256 = 4352 * a + 17 * b := by omega
  have h1 : 17 * a % 256 = 17 * a := Nat.mod_eq_of_lt (by omega)
  have h2 : (4352 * a + 17 * b) % 256 = 17 * b := by omega
  have h3 : (1114112 * a + 4352 * b + 17 * c) % 256 = 17 * c := by omega
  rw [hd1, hd2, h1, h2, h3]
  rw [hexAssemble, if_neg (by simp)]

lemma hexFromVal_size9 (a b c e : ℕ) (d : Option RGBAColor)
    (ha : a < 16) (hb : b < 16) (hc : c < 16) (he : e < 16) :
    hexFromVal (285212672 * a + 1114112 * b + 4352 * c + 17 * e) 9 d false
      = .ok (some ⟨17 * a, 17 * b, 17 * c, 17 * e⟩) := by
  rw [hexFromVal, if_neg (by norm_num), if_neg (by norm_num), if_neg (by norm_num),
    if_pos rfl]
  rw [Nat.shiftRight_eq_div_pow, Nat.shiftRight_eq_div_pow, Nat.shiftRight_eq_div_pow,
    land255, land255, land255, land255]
  norm_num
  have hd1 : (285212672 * a + 1114112 * b + 4352 * c + 17 * e) / 16777216 = 17 * a := by
    omega
  have hd2 : (285212672 * a + 1114112 * b + 4352 * c + 17 * e) / 65536
      = 4352 * a + 17 * b := by omega
  have hd3 : (285212672 * a + 1114112 * b + 4352 * c + 17 * e) / 256
      = 1114112 * a + 4352 * b + 17 * c := by omega
  have h1 : 17 * a % 256 = 17 * a := Nat.mod_eq_of_lt (by omega)
  have h2 : (4352 * a + 17 * b) % 256 = 17 * b := by omega
  have h3 : (1114112 * a + 4352 * b + 17 * c) % 256 = 17 * c := by omega
  have h4 : (285212672 * a + 1114112 * b + 4352 * c + 17 * e) % 256 = 17 * e := by omega
  rw [hd1, hd2, hd3, h1, h2, h3, h4]
  rw [hexAssemble, if_neg (by simp)]

lemma parseColor_hash (s : String) (d : Option RGBAColor) (m : Bool)
    (hne : s.data ≠ []) (h : s.data.head? = some '#') :
    parseColor s d m = parseHexColor s d m := by
  rw [parseColor, if_neg hne, if_pos h]

lemma parseColor_hex3 (c1 c2 c3 : Char) (d : Option RGBAColor)
    (h1 : isHexDigitC c1 = true) (h2 : isHexDigitC c2 = true)
    (h3 : isHexDigitC c3 = true) :
    parseColor ⟨['#', c1, c2, c3]⟩ d false
      = .ok (some ⟨17 * hexDigitVal c1, 17 * hexDigitVal c2, 17 * hexDigitVal c3, 255⟩) := by
  have ha := hexDigitVal_lt c1
  have hb := hexDigitVal_lt c2
  have hc := hexDigitVal_lt c3
  rw [parseColor_hash ⟨['#', c1, c2, c3]⟩ d false (by simp) rfl]
  rw [parseHexColor]
  rw [show (⟨['#', c1, c2, c3]⟩ : String).data.drop 1 = [c1, c2, c3] from rfl]
  rw [hexScan_all [c1, c2, c3] (by simp [h1, h2, h3]) 0]
  simp only [List.foldl_cons, List.foldl_nil, List.length_cons, List.length_nil]
  rw [if_neg (by norm_num)]
  have hval : ((0 * 16 + hexDigitVal c1) * 16 + hexDigitVal c2) * 16 + hexDigitVal c3
      = 256 * hexDigitVal c1 + 16 * hexDigitVal c2 + hexDigitVal c3 := by ring
  rw [hval]
  rw [Nat.mod_eq_of_lt (by norm_num; omega)]
  exact hexFromVal_size4 _ _ _ d ha hb hc

lemma parseColor_hex6 (c1 c2 c3 : Char) (d : Option RGBAColor)
    (h1 : isHexDigitC c1 = true) (h2 : isHexDigitC c2 = true)
    (h3 : isHexDigitC c3 = true) :
    parseColor ⟨['#', c1, c1, c2, c2, c3, c3]⟩ d false
      = .ok (some ⟨17 * hexDigitVal c1, 17 * hexDigitVal c2, 17 * hexDigitVal c3, 255⟩) := by
  have ha := hexDigitVal_lt c1
  have hb := hexDigitVal_lt c2
  have hc := hexDigitVal_lt c3
  rw [parseColor_hash ⟨['#', c1, c1, c2, c2, c3, c3]⟩ d false (by simp) rfl]
  rw [parseHexColor]
  rw [show (⟨['#', c1, c1, c2, c2, c3, c3]⟩ : String).data.drop 1
      = [c1, c1, c2, c2, c3, c3] from rfl]
  rw [hexScan_all [c1, c1, c2, c2, c3, c3] (by simp [h1, h2, h3]) 0]
  simp only [List.foldl_cons, List.foldl_nil, List.length_cons, List.length_nil]
  rw [if_neg (by norm_num)]
  have hval : ((((((0 * 16 + hexDigitVal c1) * 16 + hexDigitVal c1) * 16 + hexDigitVal c2)
        * 16 + hexDigitVal c2) * 16 + hexDigitVal c3) * 16 + hexDigitVal c3)
      = 1114112 * hexDigitVal c1 + 4352 * hexDigitVal c2 + 17 * hexDigitVal c3 := by ring
  rw [hval]
  rw [Nat.mod_eq_of_lt (by norm_num; omega)]
  exact hexFromVal_size7 _ _ _ d ha hb hc

lemma parseColor_hex4 (c1 c2 c3 c4 : Char) (d : Option RGBAColor)
    (h1 : isHexDigitC c1 = true) (h2 : isHexDigitC c2 = true)
    (h3 : isHexDigitC c3 = true) (h4 : isHexDigitC c4 = true) :
    parseColor ⟨['#', c1, c2, c3, c4]⟩ d false
      = .ok (some ⟨17 * hexDigitVal c1, 17 * hexDigitVal c2, 17 * hexDigitVal c3,
          17 * hexDigitVal c4⟩) := by
  have ha := hexDigitVal_lt c1
  have hb := hexDigitVal_lt c2
  have hc := hexDigitVal_lt c3
  have he := hexDigitVal_lt c4
  rw [parseColor_hash ⟨['#', c1, c2, c3, c4]⟩ d false (by simp) rfl]
  rw [parseHexColor]
  rw [show (⟨['#', c1, c2, c3, c4]⟩ : String).data.drop 1 = [c1, c2, c3, c4] from rfl]
  rw [hexScan_all [c1, c2, c3, c4] (by simp [h1, h2, h3, h4]) 0]
  simp only [List.foldl_cons, List.foldl_nil, List.length_cons, List.length_nil]
  rw [if_neg (by norm_num)]
  have hval : (((0 * 16 + hexDigitVal c1) * 16 + hexDigitVal c2) * 16 + hexDigitVal c3)
        * 16 + hexDigitVal c4
      = 4096 * hexDigitVal c1 + 256 * hexDigitVal c2 + 16 * hexDigitVal c3
          + hexDigitVal c4 := by ring
  rw [hval]
  rw [Nat.mod_eq_of_lt (by norm_num; omega)]
  exact hexFromVal_size5 _ _ _ _ d ha hb hc he

lemma parseColor_hex8 (c1 c2 c3 c4 : Char) (d : Option RGBAColor)
    (h1 : isHexDigitC c1 = true) (h2 : isHexDigitC c2 = true)
    (h3 : isHexDigitC c3 = true) (h4 : isHexDigitC c4 = true) :
    parseColor ⟨['#', c1, c1, c2, c2, c3, c3, c4, c4]⟩ d false
      = .ok (some ⟨17 * hexDigitVal c1, 17 * hexDigitVal c2, 17 * hexDigitVal c3,
          17 * hexDigitVal c4⟩) := by
  have ha := hexDigitVal_lt c1
  have hb := hexDigitVal_lt c2
  have hc := hexDigitVal_lt c3
  have he := hexDigitVal_lt c4
  rw [parseColor_hash ⟨['#', c1, c1, c2, c2, c3, c3, c4, c4]⟩ d false (by simp) rfl]
  rw [parseHexColor]
  rw [show (⟨['#', c1, c1, c2, c2, c3, c3, c4, c4]⟩ : String).data.drop 1
      = [c1, c1, c2, c2, c3, c3, c4, c4] from rfl]
  rw [hexScan_all [c1, c1, c2, c2, c3, c3, c4, c4] (by simp [h1, h2, h3, h4]) 0]
  simp only [List.foldl_cons, List.foldl_nil, List.length_cons, List.length_nil]
  rw [if_neg (by norm_num)]
  have hval : ((((((((0 * 16 + hexDigitVal c1) * 16 + hexDigitVal c1) * 16
        + hexDigitVal c2) * 16 + hexDigitVal c2) * 16 + hexDigitVal c3) * 16
        + hexDigitVal c3) * 16 + hexDigitVal c4) * 16 + hexDigitVal c4)
      = 285212672 * hexDigitVal c1 + 1114112 * hexDigitVal c2 + 4352 * hexDigitVal c3
          + 17 * hexDigitVal c4 := by ring
  rw [hval]
  rw [Nat.mod_eq_of_lt (by norm_num; omega)]
  exact hexFromVal_size9 _ _ _ _ d ha hb hc he

/-- C8: each nibble of a 3-digit short hex form is duplicated to a full
byte, so `parseColor("#abc")` equals `parseColor("#aabbcc")`; likewise
`#RGBA` duplicates each of the four nibbles (equalling the corresponding
`#RRGGBBAA`), and alpha defaults to 255 for the `#RGB` and `#RRGGBB`
forms where it is absent. -/
theorem hex_nibble_duplication_claim (c1 c2 c3 c4 : Char) (d : Option RGBAColor)
    (h1 : isHexDigitC c1 = true) (h2 : isHexDigitC c2 = true)
    (h3 : isHexDigitC c3 = true) (h4 : isHexDigitC c4 = true) :
    parseColor ⟨['#', c1, c2, c3]⟩ d false
        = .ok (some ⟨17 * hexDigitVal c1, 17 * hexDigitVal c2, 17 * hexDigitVal c3, 255⟩)
    ∧ parseColor ⟨['#', c1, c1, c2, c2, c3, c3]⟩ d false
        = .ok (some ⟨17 * hexDigitVal c1, 17 * hexDigitVal c2, 17 * hexDigitVal c3, 255⟩)
    ∧ parseColor ⟨['#', c1, c2, c3, c4]⟩ d false
        = .ok (some ⟨17 * hexDigitVal c1, 17 * hexDigitVal c2, 17 * hexDigitVal c3,
            17 * hexDigitVal c4⟩)
    ∧ parseColor ⟨['#', c1, c1, c2, c2, c3, c3, c4, c4]⟩ d false
        = .ok (some ⟨17 * hexDigitVal c1, 17 * hexDigitVal c2, 17 * hexDigitVal c3,
            17 * hexDigitVal c4⟩) :=
  ⟨parseColor_hex3 c1 c2 c3 d h1 h2 h3,
   parseColor_hex6 c1 c2 c3 d h1 h2 h3,
   parseColor_hex4 c1 c2 c3 c4 d h1 h2 h3 h4,
   parseColor_hex8 c1 c2 c3 c4 d h1 h2 h3 h4⟩

theorem hex_nibble_duplication_claim_witness :
    (isHexDigitC 'a' = true ∧ isHexDigitC 'b' = true ∧ isHexDigitC 'c' = true
      ∧ isHexDigitC 'd' = true)
    ∧ parseColor ⟨['#', 'a', 'b', 'c']⟩ none false
        = .ok (some ⟨17 * hexDigitVal 'a', 17 * hexDigitVal 'b', 17 * hexDigitVal 'c', 255⟩) :=
  ⟨⟨by decide, by decide, by decide, by decide⟩,
   (hex_nibble_duplication_claim 'a' 'b' 'c' 'd' none
     (by decide) (by decide) (by decide) (by decide)).1⟩

/-! ## The typed dictionary collaborator and stop-function parsing -/

/-- A typed dictionary entry (`DictionaryEntryRef`): double, int, string,
array or nested dictionary. -/
inductive DictEntry where
  | dbl (v : ℚ)
  | int (v : ℤ)
  | str (s : String)
  | arr (elems : List DictEntry)
  | dict (fields : List (String × DictEntry))

/-- A typed dictionary (`DictionaryRef`): an association list of named
entries, first binding wins. -/
def Dict := List (String × DictEntry)

def Dict.getEntry (d : Dict) (name : String) : Option DictEntry :=
  List.lookup name d

/-- `Dictionary::getDouble(name, default)`: numeric entries yield their
value, anything else the default (the exact coercions of the platform
dictionary are not under src/; only numeric entries matter here). -/
def Dict.getDouble (d : Dict) (name : String) (defVal : ℚ) : ℚ :=
  match d.getEntry name with
  | some (.dbl v) => v
  | some (.int v) => (v : ℚ)
  | _ => defVal

/-- `Dictionary::getArray(name)`: an empty vector when absent or not an
array. -/
def Dict.getArray (d : Dict) (name : String) : List DictEntry :=
  match d.getEntry name with
  | some (.arr elems) => elems
  | _ => []

/-- `DictionaryEntry::getDouble()` on a typed entry. -/
def DictEntry.getDouble : DictEntry → ℚ
  | .dbl v => v
  | .int v => (v : ℚ)
  | _ => 0

/-- Modelled from the spec: `DictionaryEntry::getColor()` is not under
src/ (it decodes a platform color object); no claim depends on its
value. -/
def DictEntry.getColor : DictEntry → RGBAColor := fun _ => ⟨0, 0, 0, 0⟩

/-- One entry of the `stops` array: must be a two-element array; the
first element is the zoom, the second a number, a text template (when
`isText`), or a color.  Mirrors the loop body of
`MaplyVectorFunctionStops::parse`; a `false` verdict keeps the stops
pushed so far, as the C++ object retains them. -/
def parseStopEntries (isText : Bool) :
    List DictEntry → List MaplyVectorFunctionStop →
      Except String (Bool × List MaplyVectorFunctionStop)
  | [], acc => .ok (true, acc)
  | e :: rest, acc =>
    match e with
    | .arr [e0, e1] =>
      match e1 with
      | .dbl v => parseStopEntries isText rest (acc ++ [⟨e0.getDouble, v, ⟨[], false⟩, none⟩])
      | .int v =>
        parseStopEntries isText rest (acc ++ [⟨e0.getDouble, (v : ℚ), ⟨[], false⟩, none⟩])
      | .str s =>
        if isText then
          parseStopEntries isText rest
            (acc ++ [⟨e0.getDouble, 0, MapboxRegexField.parse s, none⟩])
        else do
          let c ← parseColor s none false
          parseStopEntries isText rest (acc ++ [⟨e0.getDouble, 0, ⟨[], false⟩, c⟩])
      | .dict _ =>
        parseStopEntries isText rest (acc ++ [⟨e0.getDouble, 0, ⟨[], false⟩, some e1.getColor⟩])
      | .arr _ => .ok (false, acc)
    | _ => .ok (false, acc)

/-- Embedding of `MaplyVectorFunctionStops::parse`: reads `base`
(default 1), requires a `stops` array of at least two entries, then
parses each entry; returns the success flag together with the object
state (base and stops parsed so far). -/
def MaplyVectorFunctionStops.parse (entry : Dict) (isText : Bool) :
    Except String (Bool × MaplyVectorFunctionStops) :=
  let base := entry.getDouble "base" 1
  let dataArray := entry.getArray "stops"
  if dataArray.length < 2 then .ok (false, ⟨base, []⟩)
  else do
    let r ← parseStopEntries isText dataArray []
    pure (r.1, ⟨base, r.2⟩)

/-- `MapboxTransDouble`: a constant or a stop function. -/
inductive MapboxTransDouble where
  | const (v : ℚ)
  | stops (s : MaplyVectorFunctionStops)

/-- `MapboxTransColor`: a constant color or a stop function. -/
inductive MapboxTransColor where
  | constC (c : RGBAColor)
  | stopsC (s : MaplyVectorFunctionStops)

/-- Embedding of `MapboxVectorStyleSetImpl::transDouble(entry, defVal)`.
In the dictionary branch the C++ code ignores the result of
`stops->parse(...)` and tests the always-non-null shared pointer
(`if (stops)`), so it returns a stops-backed value even when the parse
failed; the warning branch is unreachable. -/
def transDouble (theEntry : Option DictEntry) (defVal : ℚ) :
    Except String (Option MapboxTransDouble) :=
  match theEntry with
  | none => .ok (some (.const defVal))
  | some e =>
    match e with
    | .dict d => do
      let r ← MaplyVectorFunctionStops.parse d false
      pure (some (.stops r.2))
    | .dbl v => .ok (some (.const v))
    | .int v => .ok (some (.const (v : ℚ)))
    | _ => .ok none

/-- Embedding of `MapboxVectorStyleSetImpl::transColor(valName, entry,
defVal)`: here the result of `stops->parse(...)` is checked, and a failed
parse yields a null result. -/
def transColor (valName : String) (entry : Option Dict) (defVal : Option RGBAColor) :
    Except String (Option MapboxTransColor) :=
  match entry with
  | none => .ok (defVal.map .constC)
  | some d =>
    match d.getEntry valName with
    | none => .ok (defVal.map .constC)
    | some theEntry =>
      match theEntry with
      | .dict dd => do
        let r ← MaplyVectorFunctionStops.parse dd false
        if r.1 then pure (some (.stopsC r.2)) else pure none
      | .str s => do
        let color ← parseColor s defVal false
        match color with
        | some c => pure (some (.constC c))
        | none => pure none
      | _ => .ok none

/-- C5 (code bug): for a nested-object property entry whose stop-function
parse fails (here: no `stops` array at all), `transColor` yields null as
the claim states, but `transDouble` ignores the failed parse and yields a
stop-function-backed value built from the failed parse (an empty stop
list), because it tests the smart pointer instead of the parse result. -/
theorem transDouble_failed_stops_claim :
    MaplyVectorFunctionStops.parse [("base", DictEntry.dbl 2)] false
      = .ok (false, ⟨2, []⟩)
    ∧ transDouble (some (.dict [("base", DictEntry.dbl 2)])) 0
      = .ok (some (.stops ⟨2, []⟩))
    ∧ transColor "paint" (some [("paint", DictEntry.dict [("base", DictEntry.dbl 2)])]) none
      = .ok none :=
  ⟨rfl, rfl, rfl⟩

/-! ## The style layer index and feature style resolver (C3, C10) -/

/-- A constructed style layer.  `MapboxVectorStyleLayer` itself is not
under src/; modelled from the spec: a unique display name, a generated
UUID, an optional source layer, an optional feature-filter predicate, a
visibility flag, a representation string and a draw priority.  The
attribute and tile-identifier types are opaque collaborators. -/
structure StyleLayerM (Attrs TileID : Type) where
  ident : String
  uuid : ℤ
  sourceLayer : String
  filter : Option (Attrs → TileID → Bool)
  visible : Bool
  representation : String
  drawPriority : ℤ

/-- The index state of `MapboxVectorStyleSetImpl`: the ordered layer list
and the three lookup structures.  Modelled from the spec: the
source-layer multimap preserves insertion (= declaration) order, its
declared C++ type being in the missing header. -/
structure MapboxVectorStyleSetImpl (Attrs TileID : Type) where
  name : String
  version : ℤ
  layersByName : List (String × StyleLayerM Attrs TileID)
  layersByUUID : List (ℤ × StyleLayerM Attrs TileID)
  layersBySource : List (String × StyleLayerM Attrs TileID)
  layers : List (StyleLayerM Attrs TileID)

/-- Overwrite-or-append insertion for the unique-key maps
(name → layer, uuid → layer): last write wins. -/
def assocSet {K V : Type} [BEq K] (m : List (K × V)) (k : K) (v : V) : List (K × V) :=
  if m.any (fun p => p.1 == k) then m.map (fun p => if p.1 == k then (k, v) else p)
  else m ++ [(k, v)]

/-- `Dictionary::getString(name)` with an empty default. -/
def Dict.getString (d : Dict) (name : String) : String :=
  match d.getEntry name with
  | some (.str s) => s
  | _ => ""

/-- `Dictionary::getInt(name)` with a zero default. -/
def Dict.getInt (d : Dict) (name : String) : ℤ :=
  match d.getEntry name with
  | some (.int v) => v
  | _ => 0

/-- The layer loop of `MapboxVectorStyleSetImpl::parse`.  `which++` sits
at the end of the loop body, so a non-dictionary entry and a successful
construction advance `which`, but the `continue` taken when layer
construction fails skips `which++`: the next layer is constructed with
the same counter value.  A constructed layer is inserted into all three
indices (the source-layer multimap only when its source layer is
non-empty) and appended to the layer list. -/
def parseLayersAux {A T : Type} (mkLayer : Dict → ℤ → Option (StyleLayerM A T))
    (basePriority : ℤ) :
    List DictEntry → ℤ → MapboxVectorStyleSetImpl A T → MapboxVectorStyleSetImpl A T
  | [], _, st => st
  | e :: rest, which, st =>
    match e with
    | .dict d =>
      match mkLayer d (basePriority + which) with
      | none => parseLayersAux mkLayer basePriority rest which st
      | some layer =>
        parseLayersAux mkLayer basePriority rest (which + 1)
          { st with
            layersByName := assocSet st.layersByName layer.ident layer
            layersByUUID := assocSet st.layersByUUID layer.uuid layer
            layersBySource :=
              if layer.sourceLayer ≠ "" then st.layersBySource ++ [(layer.sourceLayer, layer)]
              else st.layersBySource
            layers := st.layers ++ [layer] }
    | _ => parseLayersAux mkLayer basePriority rest (which + 1) st

/-- Embedding of `MapboxVectorStyleSetImpl::parse`: read `name` and
`version`, iterate the `layers` array in document order with draw
priority `basePriority + which` (where `which` does not advance past a
failed construction), and report success.  The layer constructor
`MapboxVectorStyleLayer::VectorStyleLayer` is not under src/ and is
taken as a parameter (it may fail, returning `none`). -/
def MapboxVectorStyleSetImpl.parse {A T : Type}
    (mkLayer : Dict → ℤ → Option (StyleLayerM A T)) (basePriority : ℤ)
    (styleDict : Dict) : Bool × MapboxVectorStyleSetImpl A T :=
  (true,
   parseLayersAux mkLayer basePriority (styleDict.getArray "layers") 0
     ⟨styleDict.getString "name", styleDict.getInt "version", [], [], [], []⟩)

/-- The layers array processed in document order, keeping exactly the
dictionary entries whose construction succeeds.  The draw-priority
counter matches the loop's: it advances past non-dictionary entries and
successful constructions, but not past a failed construction (the
`continue` skips `which++`). -/
def declaredLayersFrom {A T : Type} (mkLayer : Dict → ℤ → Option (StyleLayerM A T))
    (basePriority : ℤ) : List DictEntry → ℤ → List (StyleLayerM A T)
  | [], _ => []
  | e :: rest, which =>
    match e with
    | .dict d =>
      match mkLayer d (basePriority + which) with
      | some l => l :: declaredLayersFrom mkLayer basePriority rest (which + 1)
      | none => declaredLayersFrom mkLayer basePriority rest which
    | _ => declaredLayersFrom mkLayer basePriority rest (which + 1)

def declaredLayers {A T : Type} (mkLayer : Dict → ℤ → Option (StyleLayerM A T))
    (basePriority : ℤ) (entries : List DictEntry) : List (StyleLayerM A T) :=
  declaredLayersFrom mkLayer basePriority entries 0

/-- `!layer->filter || layer->filter->testFeature(attrs, tileID)`. -/
def layerMatches {A T : Type} (l : StyleLayerM A T) (attrs : A) (tid : T) : Bool :=
  match l.filter with
  | none => true
  | some f => f attrs tid

/-- `equal_range` over the (insertion-ordered) source-layer multimap. -/
def equalRange {V : Type} (m : List (String × V)) (k : String) : List V :=
  (m.filter (fun p => p.1 == k)).map Prod.snd

/-- Embedding of `MapboxVectorStyleSetImpl::stylesForFeature`: the layers
indexed under the source-layer name whose filter is absent or evaluates
true. -/
def MapboxVectorStyleSetImpl.stylesForFeature {A T : Type}
    (st : MapboxVectorStyleSetImpl A T) (attrs : A) (tid : T)
    (layerName : String) : List (StyleLayerM A T) :=
  (equalRange st.layersBySource layerName).filter (fun l => layerMatches l attrs tid)

lemma parseLayersAux_spec {A T : Type} (mkLayer : Dict → ℤ → Option (StyleLayerM A T))
    (basePriority : ℤ) :
    ∀ (es : List DictEntry) (which : ℤ) (st : MapboxVectorStyleSetImpl A T),
      (parseLayersAux mkLayer basePriority es which st).layers
          = st.layers ++ declaredLayersFrom mkLayer basePriority es which
      ∧ (parseLayersAux mkLayer basePriority es which st).layersBySource
          = st.layersBySource
            ++ (declaredLayersFrom mkLayer basePriority es which).filterMap
                (fun l => if l.sourceLayer ≠ "" then some (l.sourceLayer, l) else none)
  | [], which, st => by
    simp [parseLayersAux, declaredLayersFrom]
  | e :: rest, which, st => by
    match e with
    | .dbl v => simpa [parseLayersAux, declaredLayersFrom] using
        parseLayersAux_spec mkLayer basePriority rest (which + 1) st
    | .int v => simpa [parseLayersAux, declaredLayersFrom] using
        parseLayersAux_spec mkLayer basePriority rest (which + 1) st
    | .str s => simpa [parseLayersAux, declaredLayersFrom] using
        parseLayersAux_spec mkLayer basePriority rest (which + 1) st
    | .arr l => simpa [parseLayersAux, declaredLayersFrom] using
        parseLayersAux_spec mkLayer basePriority rest (which + 1) st
    | .dict d =>
      rw [parseLayersAux]
      match hm : mkLayer d (basePriority + which) with
      | none => simpa [declaredLayersFrom, hm] using
          parseLayersAux_spec mkLayer basePriority rest which st
      | some layer =>
        have hst := parseLayersAux_spec mkLayer basePriority rest (which + 1) { st with
          layersByName := assocSet st.layersByName layer.ident layer
          layersByUUID := assocSet st.layersByUUID layer.uuid layer
          layersBySource :=
            if layer.sourceLayer ≠ "" then st.layersBySource ++ [(layer.sourceLayer, layer)]
            else st.layersBySource
          layers := st.layers ++ [layer] }
        refine ⟨?_, ?_⟩
        · rw [hst.1]
          simp [declaredLayersFrom, hm]
        · rw [hst.2]
          by_cases hsl : layer.sourceLayer ≠ "" <;>
            simp [declaredLayersFrom, hm, hsl, List.filterMap_cons]

lemma equalRange_filterMap {A T : Type} (layerName : String) (hname : layerName ≠ "")
    (ls : List (StyleLayerM A T)) :
    equalRange (ls.filterMap
        (fun l => if l.sourceLayer ≠ "" then some (l.sourceLayer, l) else none)) layerName
      = ls.filter (fun l => l.sourceLayer == layerName) := by
  induction ls with
  | nil => rfl
  | cons l ls ih =>
    simp only [equalRange, ite_not] at ih ⊢
    by_cases hsl : l.sourceLayer = ""
    · rw [List.filterMap_cons_none (by simp [hsl])]
      have hne : (l.sourceLayer == layerName) = false := by
        rw [hsl]
        exact beq_eq_false_iff_ne.mpr (Ne.symm hname)
      rw [List.filter_cons, hne]
      simp only [Bool.false_eq_true, if_false]
      exact ih
    · have hstep : List.filterMap (fun l : StyleLayerM A T =>
            if l.sourceLayer = "" then none else some (l.sourceLayer, l)) (l :: ls)
          = (l.sourceLayer, l) :: List.filterMap (fun l =>
            if l.sourceLayer = "" then none else some (l.sourceLayer, l)) ls := by
        rw [List.filterMap_cons]
        simp [hsl]
      rw [hstep]
      rw [List.filter_cons, List.filter_cons]
      by_cases heq : l.sourceLayer = layerName
      · have hbe : (l.sourceLayer == layerName) = true := by simp [heq]
        rw [show ((l.sourceLayer, l).1 == layerName) = true from hbe]
        simp [ih]
      · have hbe : (l.sourceLayer == layerName) = false := beq_eq_false_iff_ne.mpr heq
        rw [show ((l.sourceLayer, l).1 == layerName) = false from hbe]
        simp [ih]

/-- C10: document parsing never aborts on a bad layer: `parse` iterates
the layers array in order, skips entries that are not dictionaries and
entries whose layer construction fails (a failed construction does not
advance the draw-priority counter, since the `continue` skips `which++`),
still processes and indexes every remaining well-formed layer entry in
document order, and reports success. -/
theorem parse_skips_bad_layers_claim {A T : Type}
    (mkLayer : Dict → ℤ → Option (StyleLayerM A T)) (basePriority : ℤ) (styleDict : Dict) :
    (MapboxVectorStyleSetImpl.parse mkLayer basePriority styleDict).1 = true
    ∧ (MapboxVectorStyleSetImpl.parse mkLayer basePriority styleDict).2.layers
        = declaredLayers mkLayer basePriority (styleDict.getArray "layers")
    ∧ (MapboxVectorStyleSetImpl.parse mkLayer basePriority styleDict).2.layersBySource
        = (declaredLayers mkLayer basePriority (styleDict.getArray "layers")).filterMap
            (fun l => if l.sourceLayer ≠ "" then some (l.sourceLayer, l) else none) := by
  have h := parseLayersAux_spec mkLayer basePriority (styleDict.getArray "layers") 0
    ⟨styleDict.getString "name", styleDict.getInt "version", [], [], [], []⟩
  refine ⟨rfl, ?_, ?_⟩
  · rw [MapboxVectorStyleSetImpl.parse]
    simpa [declaredLayers] using h.1
  · rw [MapboxVectorStyleSetImpl.parse]
    simpa [declaredLayers] using h.2

/-- C3: for every parsed style document, attribute set, tile identifier
and (non-empty) source-layer name, `stylesForFeature` returns exactly the
layers indexed under that source-layer name whose filter is absent or
evaluates true on `(attrs, tileID)`, in the layers' document declaration
order; and two calls with identical inputs return identical results. -/
theorem stylesForFeature_claim {A T : Type}
    (mkLayer : Dict → ℤ → Option (StyleLayerM A T)) (basePriority : ℤ) (styleDict : Dict)
    (attrs : A) (tileID : T) (layerName : String) (hname : layerName ≠ "") :
    (MapboxVectorStyleSetImpl.parse mkLayer basePriority styleDict).2.stylesForFeature
        attrs tileID layerName
      = (declaredLayers mkLayer basePriority (styleDict.getArray "layers")).filter
          (fun l => l.sourceLayer == layerName && layerMatches l attrs tileID)
    ∧ (MapboxVectorStyleSetImpl.parse mkLayer basePriority styleDict).2.stylesForFeature
        attrs tileID layerName
      = (MapboxVectorStyleSetImpl.parse mkLayer basePriority styleDict).2.stylesForFeature
        attrs tileID layerName := by
  have h := parseLayersAux_spec mkLayer basePriority (styleDict.getArray "layers") 0
    ⟨styleDict.getString "name", styleDict.getInt "version", [], [], [], []⟩
  have hsrc : (MapboxVectorStyleSetImpl.parse mkLayer basePriority styleDict).2.layersBySource
      = (declaredLayers mkLayer basePriority (styleDict.getArray "layers")).filterMap
          (fun l => if l.sourceLayer ≠ "" then some (l.sourceLayer, l) else none) := by
    rw [MapboxVectorStyleSetImpl.parse]
    simpa [declaredLayers] using h.2
  refine ⟨?_, rfl⟩
  rw [MapboxVectorStyleSetImpl.stylesForFeature]
  rw [hsrc]
  rw [equalRange_filterMap layerName hname]
  rw [List.filter_filter]
  exact List.filter_congr fun l _ => by rw [Bool.and_comm]

/-- A concrete layer constructor for exercising the style-set theorems:
every dictionary becomes an unfiltered layer bound to source layer
`roads`. -/
def mkRoadsLayer : Dict → ℤ → Option (StyleLayerM ℕ ℕ) :=
  fun _ p => some ⟨"L", 0, "roads", none, true, "", p⟩

/-- A one-layer style document for the same purpose. -/
def docOneLayer : Dict :=
  [("layers", DictEntry.arr [DictEntry.dict []])]

theorem stylesForFeature_claim_witness :
    (("roads" : String) ≠ "")
    ∧ ((MapboxVectorStyleSetImpl.parse mkRoadsLayer 100 docOneLayer).2.stylesForFeature
          0 0 "roads"
        = (declaredLayers mkRoadsLayer 100 (docOneLayer.getArray "layers")).filter
            (fun l => l.sourceLayer == "roads" && layerMatches l 0 0)) :=
  ⟨by decide,
   (stylesForFeature_claim mkRoadsLayer 100 docOneLayer 0 0 "roads" (by decide)).1⟩

end WK
